import Mathlib

/-!
Verification of the dual-bundle synthesis pipeline of `vite-plugin-legacy`
(`src/plugin.ts`).  The plugin's operations are shallowly embedded: JS strings
become `String`/`List Char`, the Rollup bundle manifest becomes a list of
records, the external collaborators (babel transform, nested rollup pass) are
passed in as explicit parameters, and the browser-side behaviour of the emitted
loader script is modelled by a small statement language with exception
semantics.
-/

namespace VitePluginLegacy

/-! ## Assets and chunks (`ViteAsset`, `OutputChunk` shapes from `plugin.ts`) -/

/-- The `ViteAsset` record from `plugin.ts` (lines 88-93): a produced file with
a `type` tag (`"chunk"` or `"asset"`), a file name, code and an optional map. -/
structure ViteAsset where
  type : String
  fileName : String
  code : String
  map : Option String
deriving DecidableEq, Repr

/-- A bundle entry as seen by `generateBundle` (line 31): we keep the fields
the hook inspects - the `type` tag, the `isEntry` flag, plus file name and
code. -/
structure BundleAsset where
  type : String
  isEntry : Bool
  fileName : String
  code : String
deriving DecidableEq, Repr

/-! ## `path.basename` (Node, posix rules, as used on line 51) -/

/-- Embedding of Node's `path.basename` for posix paths: trailing slashes are
dropped, then the part after the last remaining `/` is returned. -/
def basename (p : String) : String :=
  ⟨(((p.data.reverse).dropWhile (fun c => c = '/')).takeWhile (fun c => c ≠ '/')).reverse⟩

/-! ## Legacy file name (`plugin.ts` line 166) -/

/-- Embedding of `mainChunk.fileName.replace(/\.js$/, '.legacy.js')`
(line 166): when the name ends in `.js` that suffix is replaced by
`.legacy.js`, otherwise the name is returned unchanged. -/
def legacyFileName (name : String) : String :=
  if (".js".data).isSuffixOf name.data then
    ⟨name.data.take (name.data.length - 3) ++ (".legacy.js").data⟩
  else name

/-! ## The asset-list override (`plugin.ts` lines 64-69) -/

/-- Embedding of the `assets` setter: `assets = modernAssets.concat(legacyAssets)`
where `legacyAssets` is the one-element array holding the legacy chunk
(lines 35-37, 64-69). -/
def assetsOverride (modernAssets : List ViteAsset) (legacyChunk : ViteAsset) :
    List ViteAsset :=
  modernAssets ++ [legacyChunk]

/-! ## Entry-chunk selection (`plugin.ts` lines 31-33) -/

/-- The predicate from line 32: `asset.type == 'chunk' && asset.isEntry`. -/
def isEntryChunk (a : BundleAsset) : Bool :=
  a.type == "chunk" && a.isEntry

/-- Embedding of `Object.values(bundle).find(asset => asset.type == 'chunk'
&& asset.isEntry)` (lines 31-33): the first entry-flagged chunk of the bundle
in enumeration order, if any. -/
def findMainChunk (bundle : List BundleAsset) : Option BundleAsset :=
  bundle.find? isEntryChunk

/-- The selection step of `generateBundle`: when `find` returns `undefined`,
the later field access `mainChunk.code` (line 152) throws a `TypeError`, which
rejects the hook's promise and fails the build; we model that crash as an
error value. -/
def selectMainChunk (bundle : List BundleAsset) : Except String BundleAsset :=
  match findMainChunk bundle with
  | none => .error "TypeError: cannot read properties of undefined"
  | some c => .ok c

/-! ## Legacy chunk synthesis result (`plugin.ts` lines 146-160) -/

/-- The `{ code, map }` result of the babel transform collaborator
(line 152). -/
structure TransformResult where
  code : String
  map : Option String
deriving DecidableEq, Repr

/-- Embedding of the error path of `createLegacyChunk` (lines 152-160): the
babel transform is an external collaborator, so its outcome is a parameter;
when it reports no result the function throws
`Error('[vite-plugin-legacy] Failed to transform modern bundle')`, otherwise
the nested rollup pass (also a collaborator, parameter `generate`) produces
the legacy artifact. -/
def createLegacyChunk (transformed : Option TransformResult)
    (generate : TransformResult → ViteAsset) : Except String ViteAsset :=
  match transformed with
  | none => .error "[vite-plugin-legacy] Failed to transform modern bundle"
  | some t => .ok (generate t)

/-! ## Capability test registry (`plugin.ts` lines 95-104)

Only es2018+ levels are registered, since the `script.noModule` check alone
rules out the earlier ES targets.  The probe strings are taken verbatim from
the source (braces written with their escape codes). -/

/-- Embedding of the `syntaxTests` object literal (lines 97-104), read through
the bracket lookup `syntaxTests[target]` of line 123: registered levels map to
their probe expression, every other key yields `undefined` (`none`). -/
def syntaxTests (target : String) : Option String :=
  if target = "es2018" then
    some "void (\x7b...\x7b\x7d\x7d, /0/s, async function*()\x7b\x7d)"
  else if target = "es2019" then some "try\x7b\x7d catch\x7b\x7d"
  else if target = "es2020" then some "0?.$"
  else none

/-- The text that `${syntaxTest}` interpolates into `eval('...')` on line 134:
the registered probe, or the string `"undefined"` when the lookup produced the
JS value `undefined` (template-literal interpolation of `undefined` prints
`undefined`). -/
def probeFor (target : String) : String :=
  match syntaxTests target with
  | some s => s
  | none => "undefined"

/-- The `moduleTest` expression of line 126. -/
def moduleTest : String := "script.noModule.$"

/-! ## Browser-side semantics of the emitted loader (lines 128-144)

The loader's body is a straight-line statement list inside one
`try`/`catch`; we model a browser environment by two observables: whether
`script.noModule` is a defined property (reading `.$` from it then succeeds;
reading `.$` from `undefined` throws a `TypeError`), and which source texts
`eval` throws on. -/

/-- A browser environment, as the loader script can observe it. -/
structure BrowserEnv where
  /-- `true` when the created script element has a `noModule` property, i.e.
  the browser supports module scripts; then `script.noModule.$` evaluates
  without throwing.  When `false`, `script.noModule` is `undefined` and the
  `.$` access throws. -/
  noModuleDefined : Bool
  /-- Whether `eval` of a given source text throws in this environment. -/
  evalThrows : String → Bool

/-- The statement forms occurring in the emitted loader script. -/
inductive Stmt where
  /-- `script.noModule.$` (line 133). -/
  | checkMarker : Stmt
  /-- `eval('...')` (line 134). -/
  | evalStr : String → Stmt
  /-- `script.type = '...'` (line 135). -/
  | setType : String → Stmt
  /-- `script.src = '...'` (lines 136, 138). -/
  | setSrc : String → Stmt

/-- The script element built by the loader: its `type` and `src` fields
(absent until assigned). -/
structure ScriptEl where
  type : Option String
  src : Option String
deriving DecidableEq, Repr

/-- One statement: `none` means the statement threw. -/
def runStmt (env : BrowserEnv) (el : ScriptEl) : Stmt → Option ScriptEl
  | .checkMarker => if env.noModuleDefined then some el else none
  | .evalStr s => if env.evalThrows s then none else some el
  | .setType t => some { el with type := some t }
  | .setSrc u => some { el with src := some u }

/-- A statement sequence; the `Bool` records whether an exception escaped.
Mutations made before a throwing statement persist, as in JS. -/
def runSeq (env : BrowserEnv) : List Stmt → ScriptEl → ScriptEl × Bool
  | [], el => (el, false)
  | s :: rest, el =>
    match runStmt env el s with
    | none => (el, true)
    | some el' => runSeq env rest el'

/-- `try { body } catch(e) { handler }` acting on the script element. -/
def runTryCatch (env : BrowserEnv) (body handler : List Stmt) (el : ScriptEl) :
    ScriptEl × Bool :=
  match runSeq env body el with
  | (el', false) => (el', false)
  | (el', true) => runSeq env handler el'

/-- The `try` body of the emitted loader (lines 132-136), for a given probe
text and modern bundle URL. -/
def loaderBody (probe modern : String) : List Stmt :=
  [.checkMarker, .evalStr probe, .setType "module", .setSrc modern]

/-- The `catch` body of the emitted loader (lines 137-139). -/
def loaderHandler (legacy : String) : List Stmt :=
  [.setSrc legacy]

/-- Evaluating the loader script emitted by `createScriptFactory target` for
the given bundle URLs, in browser environment `env`: the script elements
appended to `document.head` (line 140 runs only when the `catch` clause did
not itself throw, which here it never does). -/
def evalLoader (env : BrowserEnv) (target modern legacy : String) :
    List ScriptEl :=
  let start : ScriptEl := { type := none, src := none }
  match runTryCatch env (loaderBody (probeFor target) modern)
      (loaderHandler legacy) start with
  | (el, false) => [el]
  | (_, true) => []

/-- The URLs fetched by the loader evaluation: appending a script element with
a `src` to the head triggers exactly one fetch of that URL. -/
def requestedUrls (env : BrowserEnv) (target modern legacy : String) :
    List String :=
  (evalLoader env target modern legacy).filterMap (fun el => el.src)

/-! ## The `dedent` template tag

`createScriptFactory` builds the loader script with the `dedent` template tag
(line 128).  `dedent` (npm `dedent@0.7.0`, this plugin's dependency) first
interpolates the values, then splits the result into lines, computes the
minimal indentation over lines that start with whitespace followed by a
non-whitespace character, strips that many characters from every line whose
first character is a space, joins the lines back, trims the result, and
finally rewrites every literal backslash-`n` pair into a newline.  (The raw
template parts of the source contain no backslashes, so the escape passes
`dedent` applies to raw parts are the identity here.) -/

/-- JS `\s` on the ASCII range (the only characters arising here). -/
def jsWS (c : Char) : Bool :=
  c == ' ' || c == '\t' || c == '\n' || c == '\r' || c == '\x0b' || c == '\x0c'

/-- Split a character list at every occurrence of `sep`, JS
`String.prototype.split` style (`n` separators yield `n+1` pieces). -/
def splitOnChar (sep : Char) : List Char → List (List Char)
  | [] => [[]]
  | c :: cs =>
    if c = sep then [] :: splitOnChar sep cs
    else
      match splitOnChar sep cs with
      | [] => [[c]]
      | l :: ls => (c :: l) :: ls

/-- Merge two splittings across a concatenation point: the last piece of the
first splitting fuses with the first piece of the second. -/
def glueAt : List (List Char) → List (List Char) → List (List Char)
  | [], lb => lb
  | [l], [] => [l]
  | [l], lp :: ls => (l ++ lp) :: ls
  | l :: l2 :: ls, lb => l :: glueAt (l2 :: ls) lb

/-- Join pieces with `sep` between them, JS `Array.prototype.join` style. -/
def joinWithChar (sep : Char) : List (List Char) → List Char
  | [] => []
  | [l] => l
  | l :: ls => l ++ sep :: joinWithChar sep ls

/-- The indentation a line contributes to `dedent`'s minimum: the length of
its leading whitespace run, provided the run is non-empty and followed by a
non-whitespace character (the regex `^(\s+)\S+`). -/
def indentOf (l : List Char) : Option Nat :=
  if (l.takeWhile jsWS).isEmpty || (l.dropWhile jsWS).isEmpty then none
  else some (l.takeWhile jsWS).length

/-- Combine the running minimum with one line's contribution. -/
def mindentCombine (acc o : Option Nat) : Option Nat :=
  match o with
  | none => acc
  | some n =>
    match acc with
    | none => some n
    | some m => some (min m n)

/-- One step of `dedent`'s minimum-indent fold. -/
def mindentStep (acc : Option Nat) (l : List Char) : Option Nat :=
  mindentCombine acc (indentOf l)

/-- `dedent`'s minimum indentation over all lines. -/
def mindentOf (lines : List (List Char)) : Option Nat :=
  lines.foldl mindentStep none

/-- `dedent` strips `m` characters from a line iff its first character is a
space (`l[0] === " "`). -/
def dropIndent (m : Nat) (l : List Char) : List Char :=
  if l.head? = some ' ' then l.drop m else l

/-- Remove the maximal whitespace suffix. -/
def trimRight : List Char → List Char
  | [] => []
  | c :: cs =>
    let r := trimRight cs
    if r.isEmpty then (if jsWS c then [] else [c]) else c :: r

/-- JS `String.prototype.trim`. -/
def jsTrim (l : List Char) : List Char :=
  trimRight (l.dropWhile jsWS)

/-- `dedent`'s final `replace(/\\n/g, "\n")`: each literal backslash-`n` pair
becomes a newline. -/
def replEscapedNl : List Char → List Char
  | [] => []
  | [c] => [c]
  | c :: d :: rest =>
    if c = '\\' ∧ d = 'n' then '\n' :: replEscapedNl rest
    else c :: replEscapedNl (d :: rest)

/-- The `dedent` template tag applied to an already-interpolated string. -/
def dedent (s : String) : String :=
  let lines := splitOnChar '\n' s.data
  let stripped :=
    (mindentOf lines).elim s.data
      (fun m => joinWithChar '\n' (lines.map (dropIndent m)))
  ⟨replEscapedNl (jsTrim stripped)⟩

/-- The raw template text of lines 129-133, up to the `${moduleTest}`
interpolation point (the source indents the template body by four spaces
relative to column zero). -/
def rawA : String :=
  "\n    <script>\n      (function() \x7b\n        var script = document.createElement('script')\n        try \x7b\n          "

/-- The raw template text between `${moduleTest}` and `${syntaxTest}`
(line 134). -/
def rawB : String := "\n          eval('"

/-- The raw template text between `${syntaxTest}` and `${modernBundleId}`
(lines 134-136). -/
def rawC : String :=
  "')\n          script.type = 'module'\n          script.src = '"

/-- The raw template text between `${modernBundleId}` and `${legacyBundleId}`
(lines 136-138). -/
def rawD : String := "'\n        \x7d catch(e) \x7b\n          script.src = '"

/-- The raw template text after `${legacyBundleId}` (lines 138-143, ending
with the two spaces before the closing backtick). -/
def rawE : String :=
  "'\n        \x7d\n        document.head.appendChild(script)\n      \x7d)()\n    </script>\n  "

/-- The interpolated (pre-`dedent`) template text of lines 128-143, with the
four interpolation points filled in verbatim. -/
def rawLoaderText (probe modern legacy : String) : String :=
  rawA ++ moduleTest ++ rawB ++ probe ++ rawC ++ modern ++ rawD ++ legacy
    ++ rawE

/-- The loader markup emitted for a given probe expression and bundle URLs:
the dedented interpolated template. -/
def loaderScriptFor (probe modernBundleId legacyBundleId : String) : String :=
  dedent (rawLoaderText probe modernBundleId legacyBundleId)

/-- Embedding of `createScriptFactory(target)(modernBundleId, legacyBundleId)`
(lines 121-144): the emitted loader markup, as a string. -/
def createScriptFactory (target modernBundleId legacyBundleId : String) :
    String :=
  loaderScriptFor (probeFor target) modernBundleId legacyBundleId

/-! ## `path.posix.resolve` (used on line 54) -/

/-- One step of Node's `normalizeString` component walk: `.` and empty
components vanish, `..` pops the last kept component (or is kept itself at
the start of a relative path when `allowAboveRoot`). The accumulator holds
the kept components in reverse. -/
def normStep (allowAboveRoot : Bool) (stack : List (List Char))
    (comp : List Char) : List (List Char) :=
  if comp = [] ∨ comp = ['.'] then stack
  else if comp = ['.', '.'] then
    match stack with
    | [] => if allowAboveRoot then [['.', '.']] else []
    | top :: rest =>
      if top = ['.', '.'] then ['.', '.'] :: top :: rest else rest
  else comp :: stack

/-- Embedding of Node's `path.posix.resolve(...args)`: arguments are joined
right-to-left until one is absolute (falling back to the working directory,
an explicit parameter here), then the joined path is normalized. -/
def posixResolve (cwd : String) (args : List String) : String :=
  let step := fun (a : String) (acc : String × Bool) =>
    if acc.2 then acc
    else if a = "" then acc
    else (a ++ "/" ++ acc.1, a.data.head? = some '/')
  let joined := args.foldr step ("", false)
  let joined := if joined.2 then joined else step cwd joined
  let comps := splitOnChar '/' joined.1.data
  let norm := (comps.foldl (normStep (!joined.2)) []).reverse
  let body := joinWithChar '/' norm
  if joined.2 then ⟨'/' :: body⟩
  else if body.isEmpty then "." else ⟨body⟩

/-! ## The HTML override (`plugin.ts` lines 44-63)

The `html` setter runs
`content.replace(/<script type="module" src="([^"]+)"><\/script>/g, fn)`.
For this pattern a match attempt at a position is deterministic: after the
literal head the capture `[^"]+` must reach exactly the first following
quote, and the literal tail must follow it (backtracking cannot produce any
other match).  Global replacement scans left to right and resumes after each
match. -/

/-- The literal part of the pattern before the captured URL. -/
def tagHead : List Char := "<script type=\"module\" src=\"".data

/-- The literal part of the pattern after the captured URL. -/
def tagTail : List Char := "\"></script>".data

/-- The full matched tag text for a captured URL `u`. -/
def moduleTagList (u : List Char) : List Char := tagHead ++ u ++ tagTail

/-- The character class `[^"]`. -/
def notQuote (c : Char) : Bool := c != '"'

/-- Strip an expected literal: `chop pat cs = some rest` iff `cs = pat ++ rest`. -/
def chop : List Char → List Char → Option (List Char)
  | [], cs => some cs
  | _ :: _, [] => none
  | p :: ps, c :: cs => if c = p then chop ps cs else none

/-- Attempt the regex at the start of `cs`: on success, the captured URL and
the remainder of the input after the matched tag. -/
def matchTag (cs : List Char) : Option (List Char × List Char) :=
  match chop tagHead cs with
  | none => none
  | some afterHead =>
    let u := afterHead.takeWhile notQuote
    if u.isEmpty then none
    else
      match chop tagTail (afterHead.dropWhile notQuote) with
      | none => none
      | some rest => some (u, rest)

theorem chop_eq_some {pat : List Char} :
    ∀ {cs rest : List Char}, chop pat cs = some rest ↔ cs = pat ++ rest := by
  induction pat with
  | nil => intro cs rest; simp [chop]
  | cons p ps ih =>
    intro cs rest
    cases cs with
    | nil => simp [chop]
    | cons c cs =>
      by_cases hc : c = p
      · subst hc; simp [chop, ih]
      · simp [chop, hc, Ne.symm hc]

theorem takeWhile_append_stop (p : Char → Bool) :
    ∀ {u : List Char}, (∀ c ∈ u, p c = true) → ∀ {y : Char}, p y = false →
      ∀ (ys : List Char),
        (u ++ y :: ys).takeWhile p = u ∧ (u ++ y :: ys).dropWhile p = y :: ys := by
  intro u
  induction u with
  | nil => intro _ y hy ys; simp [List.takeWhile_cons, List.dropWhile_cons, hy]
  | cons a u ih =>
    intro hu y hy ys
    have ha : p a = true := hu a (by simp)
    have hrest : ∀ c ∈ u, p c = true := fun c hc => hu c (by simp [hc])
    have := ih hrest hy ys
    simp [List.takeWhile_cons, List.dropWhile_cons, ha, this.1, this.2]

theorem matchTag_sound {cs u rest : List Char}
    (h : matchTag cs = some (u, rest)) :
    u ≠ [] ∧ '"' ∉ u ∧ cs = moduleTagList u ++ rest := by
  unfold matchTag at h
  cases hh : chop tagHead cs with
  | none => rw [hh] at h; exact absurd h (by simp)
  | some afterHead =>
    rw [hh] at h
    simp only at h
    by_cases he : (afterHead.takeWhile notQuote).isEmpty
    · rw [if_pos he] at h; exact absurd h (by simp)
    · rw [if_neg he] at h
      cases ht : chop tagTail (afterHead.dropWhile notQuote) with
      | none => rw [ht] at h; exact absurd h (by simp)
      | some rest' =>
        rw [ht] at h
        simp only [Option.some.injEq, Prod.mk.injEq] at h
        obtain ⟨hu, hrest⟩ := h
        subst hu; subst hrest
        refine ⟨by simpa [List.isEmpty_iff] using he, ?_, ?_⟩
        · intro hmem
          have := List.mem_takeWhile_imp hmem
          simp [notQuote] at this
        · have h1 : cs = tagHead ++ afterHead := chop_eq_some.mp hh
          have h2 : afterHead.dropWhile notQuote = tagTail ++ rest' :=
            chop_eq_some.mp ht
          have h3 : afterHead.takeWhile notQuote ++
              afterHead.dropWhile notQuote = afterHead :=
            List.takeWhile_append_dropWhile notQuote afterHead
          calc cs = tagHead ++ afterHead := h1
            _ = tagHead ++ (afterHead.takeWhile notQuote ++
                  afterHead.dropWhile notQuote) := by rw [h3]
            _ = moduleTagList (afterHead.takeWhile notQuote) ++ rest' := by
                  rw [h2]; simp [moduleTagList, List.append_assoc]

theorem matchTag_complete {u : List Char} (hu : u ≠ []) (hq : '"' ∉ u)
    (rest : List Char) :
    matchTag (moduleTagList u ++ rest) = some (u, rest) := by
  have hall : ∀ c ∈ u, notQuote c = true := by
    intro c hc
    simp only [notQuote, bne_iff_ne, ne_eq]
    intro h; exact hq (h ▸ hc)
  have hqfalse : notQuote '"' = false := by decide
  have hsplit :=
    takeWhile_append_stop notQuote hall hqfalse
      (("></script>").data ++ rest)
  have hform : moduleTagList u ++ rest =
      tagHead ++ (u ++ '"' :: (("></script>").data ++ rest)) := by
    simp [moduleTagList, tagHead, tagTail, List.append_assoc]
  rw [hform]
  unfold matchTag
  rw [chop_eq_some.mpr rfl]
  simp only [hsplit.1, hsplit.2]
  rw [if_neg (by simpa [List.isEmpty_iff] using hu)]
  have : ('"' :: (("></script>").data ++ rest)) = tagTail ++ rest := by
    simp [tagTail]
  rw [this, chop_eq_some.mpr rfl]

theorem matchTag_rest_lt {cs u rest : List Char}
    (h : matchTag cs = some (u, rest)) : rest.length < cs.length := by
  obtain ⟨hu, _, hcs⟩ := matchTag_sound h
  have hlen := congrArg List.length hcs
  have h27 : tagHead.length = 27 := by decide
  have h11 : tagTail.length = 11 := by decide
  simp [moduleTagList, h27, h11] at hlen
  omega

/-- The global replacement loop of `String.prototype.replace` with the `g`
flag: scan left to right; at a match, emit the callback's result and resume
after the match; otherwise copy one character. -/
def spliceList (repl : List Char → List Char) (cs : List Char) : List Char :=
  match cs with
  | [] => []
  | c :: rest =>
    match h : matchTag (c :: rest) with
    | some (u, tl) => repl u ++ spliceList repl tl
    | none => c :: spliceList repl rest
termination_by cs.length
decreasing_by
  · exact matchTag_rest_lt h
  · simp

/-- The replacement callback of lines 50-60: a URL whose base name equals the
entry chunk's file name is replaced by the generated loader (modern URL = the
matched URL, legacy URL = `path.posix.resolve(url, '..', legacyName)`);
any other matched tag is emitted unchanged. -/
def replFn (target entry legacyName cwd : String) (u : List Char) :
    List Char :=
  if basename ⟨u⟩ = entry then
    (createScriptFactory target ⟨u⟩
      (posixResolve cwd [⟨u⟩, "..", legacyName])).data
  else moduleTagList u

/-- Embedding of the `html` setter (lines 45-63). -/
def htmlOverride (target entry legacyName cwd : String) (content : String) :
    String :=
  ⟨spliceList (replFn target entry legacyName cwd) content.data⟩

/-- Decidable check that no position of the input starts an exact-shape
module-script tag match. -/
def noTagOccurs : List Char → Bool
  | [] => true
  | c :: cs => (matchTag (c :: cs)).isNone && noTagOccurs cs

/-- Spec-side fixed loader template (the dedented shape of the emitted
markup), with the probe expression and the two bundle URLs inserted
character-for-character inside the single-quoted literals, unescaped. -/
def loaderTemplate (probe modern legacy : String) : String :=
  "<script>\n  (function() \x7b\n    var script = document.createElement('script')\n    try \x7b\n      script.noModule.$\n      eval('"
    ++ probe
    ++ "')\n      script.type = 'module'\n      script.src = '"
    ++ modern
    ++ "'\n    \x7d catch(e) \x7b\n      script.src = '"
    ++ legacy
    ++ "'\n    \x7d\n    document.head.appendChild(script)\n  \x7d)()\n</script>"

/-- An exact-shape module-script tag occurrence begins at the head of the
input: `<script type="module" src="u"></script>` with `u` a non-empty run of
non-quote characters. -/
def TagAtHead (cs : List Char) : Prop :=
  ∃ u rest, (u ≠ [] ∧ '"' ∉ u) ∧ cs = moduleTagList u ++ rest

/-- Spec-side description of the HTML override (spec sections 3 and 4.4),
stated independently of the scanner: reading the input left to right, a
module-script tag whose `src` base name equals the entry chunk's file name is
replaced by the generated loader, every other module-script tag is emitted
byte-for-byte, and every character not beginning a tag is copied
byte-for-byte. -/
inductive SpliceSpec (entry : String) (loaderOf : List Char → List Char) :
    List Char → List Char → Prop
  | nil : SpliceSpec entry loaderOf [] []
  | keep (c : Char) (cs os : List Char) :
      ¬ TagAtHead (c :: cs) → SpliceSpec entry loaderOf cs os →
      SpliceSpec entry loaderOf (c :: cs) (c :: os)
  | rewriteTag (u rest os : List Char) :
      u ≠ [] → '"' ∉ u → basename ⟨u⟩ = entry →
      SpliceSpec entry loaderOf rest os →
      SpliceSpec entry loaderOf (moduleTagList u ++ rest) (loaderOf u ++ os)
  | passTag (u rest os : List Char) :
      u ≠ [] → '"' ∉ u → basename ⟨u⟩ ≠ entry →
      SpliceSpec entry loaderOf rest os →
      SpliceSpec entry loaderOf (moduleTagList u ++ rest)
        (moduleTagList u ++ os)

/-! ## List helper lemmas -/

theorem list_find?_eq_some_split {α : Type} (p : α → Bool) :
    ∀ (l : List α) (c : α), l.find? p = some c →
      ∃ l₁ l₂, l = l₁ ++ c :: l₂ ∧ p c = true ∧ ∀ a ∈ l₁, p a = false := by
  intro l
  induction l with
  | nil => intro c h; simp [List.find?] at h
  | cons x xs ih =>
    intro c h
    by_cases hx : p x = true
    · rw [List.find?_cons_of_pos _ hx] at h
      injection h with h
      exact ⟨[], xs, by simp [h], h ▸ hx, by simp⟩
    · have hx' : p x = false := by simpa using hx
      rw [List.find?_cons_of_neg _ (by simp [hx'])] at h
      obtain ⟨l₁, l₂, rfl, hc, hall⟩ := ih c h
      exact ⟨x :: l₁, l₂, rfl, hc, by
        intro a ha
        rcases List.mem_cons.mp ha with rfl | ha
        · exact hx'
        · exact hall a ha⟩

/-! ## Scanner lemmas -/

theorem matchTag_none_iff {cs : List Char} :
    matchTag cs = none ↔ ¬ TagAtHead cs := by
  constructor
  · rintro h ⟨u, rest, ⟨hu, hq⟩, hcs⟩
    rw [hcs, matchTag_complete hu hq] at h
    exact absurd h (by simp)
  · intro h
    cases hm : matchTag cs with
    | none => rfl
    | some p =>
      obtain ⟨u, rest⟩ := p
      obtain ⟨hu, hq, hcs⟩ := matchTag_sound hm
      exact absurd ⟨u, rest, ⟨hu, hq⟩, hcs⟩ h

theorem moduleTag_append_ne_nil (u rest : List Char) :
    moduleTagList u ++ rest ≠ [] := by
  intro h
  have hlen := congrArg List.length h
  have h27 : tagHead.length = 27 := by decide
  have h11 : tagTail.length = 11 := by decide
  simp [moduleTagList, h27, h11] at hlen

theorem tag_decomp_unique {u u' rest rest' : List Char}
    (hu : u ≠ []) (hq : '"' ∉ u) (hu' : u' ≠ []) (hq' : '"' ∉ u')
    (h : moduleTagList u ++ rest = moduleTagList u' ++ rest') :
    u = u' ∧ rest = rest' := by
  have h1 := matchTag_complete hu hq rest
  have h2 := matchTag_complete hu' hq' rest'
  rw [h, h2] at h1
  simp only [Option.some.injEq, Prod.mk.injEq] at h1
  exact ⟨h1.1.symm, h1.2.symm⟩

theorem spliceList_cons_of_match {c : Char} {rest u tl : List Char}
    (repl : List Char → List Char)
    (h : matchTag (c :: rest) = some (u, tl)) :
    spliceList repl (c :: rest) = repl u ++ spliceList repl tl := by
  rw [spliceList]
  split
  · rename_i u2 tl2 heq
    rw [heq] at h
    simp only [Option.some.injEq, Prod.mk.injEq] at h
    rw [h.1, h.2]
  · rename_i heq
    rw [heq] at h
    exact absurd h (by simp)

theorem spliceList_cons_of_none {c : Char} {rest : List Char}
    (repl : List Char → List Char) (h : matchTag (c :: rest) = none) :
    spliceList repl (c :: rest) = c :: spliceList repl rest := by
  rw [spliceList]
  split
  · rename_i u2 tl2 heq
    rw [heq] at h
    exact absurd h (by simp)
  · rfl

/-- The scanner satisfies the spec-side description. -/
theorem spliceList_satisfies_spec (entry : String)
    (lo : List Char → List Char) (cs : List Char) :
    SpliceSpec entry lo cs
      (spliceList
        (fun u => if basename ⟨u⟩ = entry then lo u else moduleTagList u)
        cs) := by
  have main : ∀ n cs, List.length cs ≤ n →
      SpliceSpec entry lo cs
        (spliceList
          (fun u => if basename ⟨u⟩ = entry then lo u else moduleTagList u)
          cs) := by
    intro n
    induction n with
    | zero =>
      intro cs h
      have : cs = [] := List.eq_nil_of_length_eq_zero (Nat.le_zero.mp h)
      subst this
      rw [spliceList]
      exact .nil
    | succ n ih =>
      intro cs hlen
      cases cs with
      | nil => rw [spliceList]; exact .nil
      | cons c rest =>
        cases hm : matchTag (c :: rest) with
        | some p =>
          obtain ⟨u, tl⟩ := p
          obtain ⟨hu, hq, hdecomp⟩ := matchTag_sound hm
          rw [spliceList_cons_of_match _ hm]
          have htl : tl.length ≤ n := by
            have := matchTag_rest_lt hm
            simp only [List.length_cons] at this hlen
            omega
          have ihtl := ih tl htl
          rw [hdecomp]
          by_cases hb : basename ⟨u⟩ = entry
          · simp only [hb, if_pos]
            exact .rewriteTag u tl _ hu hq hb ihtl
          · rw [if_neg hb]
            exact .passTag u tl _ hu hq hb ihtl
        | none =>
          rw [spliceList_cons_of_none _ hm]
          have hrest : rest.length ≤ n := by
            simp only [List.length_cons] at hlen
            omega
          exact .keep c rest _ (matchTag_none_iff.mp hm) (ih rest hrest)
  exact main cs.length cs le_rfl

/-- The spec-side description is deterministic: it pins down the output. -/
theorem spliceSpec_unique {entry : String} {lo : List Char → List Char} :
    ∀ {i o₁ : List Char}, SpliceSpec entry lo i o₁ →
      ∀ {o₂ : List Char}, SpliceSpec entry lo i o₂ → o₁ = o₂ := by
  intro i o₁ h1
  induction h1 with
  | nil =>
    intro o₂ h2
    cases h2
    rfl
  | keep c cs os hno hcs ih =>
    intro o₂ h2
    cases h2 with
    | keep c' cs' os' hno' hcs' => exact congrArg _ (ih hcs')
    | rewriteTag u rest os' hu hq hb hrest =>
      exact absurd ⟨u, rest, ⟨hu, hq⟩, rfl⟩ hno
    | passTag u rest os' hu hq hb hrest =>
      exact absurd ⟨u, rest, ⟨hu, hq⟩, rfl⟩ hno
  | rewriteTag u rest os hu hq hb hrest ih =>
    intro o₂ h2
    generalize hgen : moduleTagList u ++ rest = i2 at h2
    cases h2 with
    | nil => exact absurd hgen (moduleTag_append_ne_nil u rest)
    | keep c' cs' os' hno' hcs' =>
      exact absurd ⟨u, rest, ⟨hu, hq⟩, hgen.symm⟩ hno'
    | rewriteTag u' rest' os' hu' hq' hb' hrest' =>
      obtain ⟨hu2, hr2⟩ := tag_decomp_unique hu hq hu' hq' hgen
      subst hu2; subst hr2
      exact congrArg _ (ih hrest')
    | passTag u' rest' os' hu' hq' hb' hrest' =>
      obtain ⟨hu2, hr2⟩ := tag_decomp_unique hu hq hu' hq' hgen
      exact absurd (hu2 ▸ hb) hb'
  | passTag u rest os hu hq hb hrest ih =>
    intro o₂ h2
    generalize hgen : moduleTagList u ++ rest = i2 at h2
    cases h2 with
    | nil => exact absurd hgen (moduleTag_append_ne_nil u rest)
    | keep c' cs' os' hno' hcs' =>
      exact absurd ⟨u, rest, ⟨hu, hq⟩, hgen.symm⟩ hno'
    | rewriteTag u' rest' os' hu' hq' hb' hrest' =>
      obtain ⟨hu2, hr2⟩ := tag_decomp_unique hu hq hu' hq' hgen
      exact absurd (hu2 ▸ hb') hb
    | passTag u' rest' os' hu' hq' hb' hrest' =>
      obtain ⟨hu2, hr2⟩ := tag_decomp_unique hu hq hu' hq' hgen
      subst hu2; subst hr2
      exact congrArg _ (ih hrest')

/-- Inputs with no exact-shape tag occurrence pass through unchanged. -/
theorem spliceList_id_of_noTag (repl : List Char → List Char) :
    ∀ cs, noTagOccurs cs = true → spliceList repl cs = cs := by
  intro cs
  induction cs with
  | nil => intro _; rw [spliceList]
  | cons c rest ih =>
    intro h
    simp only [noTagOccurs, Bool.and_eq_true, Option.isNone_iff_eq_none] at h
    rw [spliceList_cons_of_none _ h.1, ih h.2]

/-! ## Lemmas on the dedent pipeline -/

theorem splitOnChar_ne_nil (sep : Char) : ∀ cs, splitOnChar sep cs ≠ [] := by
  intro cs
  cases cs with
  | nil => simp [splitOnChar]
  | cons c cs =>
    by_cases h : c = sep
    · simp [splitOnChar, h]
    · simp only [splitOnChar, if_neg h]
      cases hs : splitOnChar sep cs <;> simp

theorem splitOnChar_cons_sep (sep : Char) (cs : List Char) :
    splitOnChar sep (sep :: cs) = [] :: splitOnChar sep cs := by
  simp [splitOnChar]

theorem splitOnChar_cons_ne (sep c : Char) (cs : List Char) (h : c ≠ sep) :
    splitOnChar sep (c :: cs) =
      match splitOnChar sep cs with
      | [] => [[c]]
      | l :: ls => (c :: l) :: ls := by
  simp [splitOnChar, h]

theorem splitOnChar_append (sep : Char) :
    ∀ a b : List Char, splitOnChar sep (a ++ b) =
      glueAt (splitOnChar sep a) (splitOnChar sep b) := by
  intro a
  induction a with
  | nil =>
    intro b
    cases hb : splitOnChar sep b with
    | nil => exact absurd hb (splitOnChar_ne_nil sep b)
    | cons l ls =>
      simp only [List.nil_append]
      rw [hb]
      simp [splitOnChar, glueAt]
  | cons c a ih =>
    intro b
    rw [List.cons_append]
    by_cases hc : c = sep
    · subst hc
      rw [splitOnChar_cons_sep, splitOnChar_cons_sep, ih]
      cases ha : splitOnChar c a with
      | nil => exact absurd ha (splitOnChar_ne_nil c a)
      | cons l ls => cases ls <;> simp [glueAt]
    · rw [splitOnChar_cons_ne sep c _ hc, splitOnChar_cons_ne sep c _ hc, ih]
      cases ha : splitOnChar sep a with
      | nil => exact absurd ha (splitOnChar_ne_nil sep a)
      | cons l ls =>
        cases ls with
        | nil =>
          cases hb : splitOnChar sep b with
          | nil => exact absurd hb (splitOnChar_ne_nil sep b)
          | cons lb lbs => simp [glueAt]
        | cons l2 ls2 => simp [glueAt]

theorem splitOnChar_no_sep (sep : Char) :
    ∀ l : List Char, (∀ c ∈ l, c ≠ sep) → splitOnChar sep l = [l] := by
  intro l
  induction l with
  | nil => intro _; rfl
  | cons c l ih =>
    intro h
    have hc : c ≠ sep := h c (by simp)
    simp only [splitOnChar, if_neg hc]
    rw [ih (fun d hd => h d (by simp [hd]))]

theorem takeWhile_dropWhile_append {p : Char → Bool} :
    ∀ (l r : List Char), l.dropWhile p ≠ [] →
      (l ++ r).takeWhile p = l.takeWhile p ∧
      (l ++ r).dropWhile p = l.dropWhile p ++ r := by
  intro l
  induction l with
  | nil => intro r h; simp [List.dropWhile] at h
  | cons c l ih =>
    intro r h
    by_cases hc : p c
    · have h' : l.dropWhile p ≠ [] := by
        simpa [List.dropWhile_cons, hc] using h
      have := ih r h'
      simp [List.takeWhile_cons, List.dropWhile_cons, hc, this.1, this.2]
    · simp [List.takeWhile_cons, List.dropWhile_cons, hc]

theorem indentOf_append_left (l r : List Char) (h : l.dropWhile jsWS ≠ []) :
    indentOf (l ++ r) = indentOf l := by
  obtain ⟨ht, hd⟩ := takeWhile_dropWhile_append l r h
  have h1 : (l.dropWhile jsWS ++ r).isEmpty = false := by
    cases hdw : l.dropWhile jsWS with
    | nil => exact absurd hdw h
    | cons x xs => simp
  have h2 : (l.dropWhile jsWS).isEmpty = false := by
    cases hdw : l.dropWhile jsWS with
    | nil => exact absurd hdw h
    | cons x xs => simp
  simp only [indentOf, ht, hd, h1, h2, Bool.or_false]

theorem mindentOf_eq_map (lines : List (List Char)) :
    mindentOf lines = (lines.map indentOf).foldl mindentCombine none := by
  rw [List.foldl_map]
  rfl

theorem dropIndent_append (m : Nat) (l X : List Char)
    (hhead : l.head? = some ' ') (hlen : m ≤ l.length) :
    dropIndent m (l ++ X) = l.drop m ++ X := by
  have hh : (l ++ X).head? = some ' ' := by
    cases l with
    | nil => simp at hhead
    | cons c cs => simpa using hhead
  rw [dropIndent, if_pos hh]
  exact List.drop_append_of_le_length hlen

theorem trimRight_append (a b : List Char) (h : trimRight b ≠ []) :
    trimRight (a ++ b) = a ++ trimRight b := by
  induction a with
  | nil => simp
  | cons c a ih =>
    show (let r := trimRight (a ++ b);
      if r.isEmpty then (if jsWS c then [] else [c]) else c :: r) =
        c :: (a ++ trimRight b)
    rw [ih]
    have hne : (a ++ trimRight b).isEmpty = false := by
      cases hab : a ++ trimRight b with
      | nil =>
        rcases List.append_eq_nil.mp hab with ⟨_, h2⟩
        exact absurd h2 h
      | cons x xs => simp
    simp [hne]

theorem replEscapedNl_id : ∀ l : List Char, '\\' ∉ l → replEscapedNl l = l := by
  have main : ∀ n l, List.length l ≤ n → '\\' ∉ l → replEscapedNl l = l := by
    intro n
    induction n with
    | zero =>
      intro l hl _
      have : l = [] := List.eq_nil_of_length_eq_zero (Nat.le_zero.mp hl)
      subst this
      rfl
    | succ n ih =>
      intro l hl hnb
      cases l with
      | nil => rfl
      | cons c cs =>
        cases cs with
        | nil => rfl
        | cons d rest =>
          have hc : ¬(c = '\\' ∧ d = 'n') := by
            rintro ⟨rfl, _⟩
            exact hnb (by simp)
          rw [replEscapedNl, if_neg hc]
          have hlen : (d :: rest).length ≤ n := by
            simp only [List.length_cons] at hl ⊢
            omega
          have hnb' : '\\' ∉ d :: rest :=
            fun hm => hnb (List.mem_cons_of_mem _ hm)
          rw [ih (d :: rest) hlen hnb']
  exact fun l => main l.length l le_rfl

theorem dedent_data (s : String) :
    (dedent s).data =
      replEscapedNl (jsTrim ((mindentOf (splitOnChar '\n' s.data)).elim s.data
        (fun m => joinWithChar '\n'
          ((splitOnChar '\n' s.data).map (dropIndent m))))) := rfl

/-- For interpolated values free of newlines, the line structure of the
interpolated template is the fixed 16-line shape with the values embedded in
their lines. -/
theorem rawLoaderText_lines (probe modern legacy : String)
    (hp : '\n' ∉ probe.data) (hm : '\n' ∉ modern.data)
    (hl : '\n' ∉ legacy.data) :
    splitOnChar '\n' (rawLoaderText probe modern legacy).data =
      [[],
       "    <script>".data,
       "      (function() \x7b".data,
       "        var script = document.createElement('script')".data,
       "        try \x7b".data,
       "          script.noModule.$".data,
       "          eval('".data ++ (probe.data ++ "')".data),
       "          script.type = 'module'".data,
       "          script.src = '".data ++ (modern.data ++ "'".data),
       "        \x7d catch(e) \x7b".data,
       "          script.src = '".data ++ (legacy.data ++ "'".data),
       "        \x7d".data,
       "        document.head.appendChild(script)".data,
       "      \x7d)()".data,
       "    </script>".data,
       "  ".data] := by
  have hAB : ∀ Y : List Char,
      rawA.data ++ (moduleTest.data ++ (rawB.data ++ Y)) =
        ("\n    <script>\n      (function() \x7b\n        var script = document.createElement('script')\n        try \x7b\n          script.noModule.$\n          eval('").data
          ++ Y := by
    intro Y
    have hfuse : rawA.data ++ moduleTest.data ++ rawB.data =
        ("\n    <script>\n      (function() \x7b\n        var script = document.createElement('script')\n        try \x7b\n          script.noModule.$\n          eval('").data := by
      decide
    rw [← List.append_assoc, ← List.append_assoc, hfuse]
  have habc : (rawLoaderText probe modern legacy).data =
      ("\n    <script>\n      (function() \x7b\n        var script = document.createElement('script')\n        try \x7b\n          script.noModule.$\n          eval('").data
        ++ (probe.data ++ (rawC.data ++ (modern.data ++ (rawD.data
        ++ (legacy.data ++ rawE.data))))) := by
    simp only [rawLoaderText, String.data_append, List.append_assoc]
    exact hAB _
  rw [habc]
  rw [splitOnChar_append, splitOnChar_append, splitOnChar_append,
    splitOnChar_append, splitOnChar_append, splitOnChar_append]
  rw [splitOnChar_no_sep '\n' probe.data (fun c hc he => hp (he ▸ hc)),
    splitOnChar_no_sep '\n' modern.data (fun c hc he => hm (he ▸ hc)),
    splitOnChar_no_sep '\n' legacy.data (fun c hc he => hl (he ▸ hc))]
  rw [show splitOnChar '\n'
      ("\n    <script>\n      (function() \x7b\n        var script = document.createElement('script')\n        try \x7b\n          script.noModule.$\n          eval('").data
      = [[],
         "    <script>".data,
         "      (function() \x7b".data,
         "        var script = document.createElement('script')".data,
         "        try \x7b".data,
         "          script.noModule.$".data,
         "          eval('".data] from by decide]
  rw [show splitOnChar '\n' rawC.data
      = ["')".data,
         "          script.type = 'module'".data,
         "          script.src = '".data] from by decide]
  rw [show splitOnChar '\n' rawD.data
      = ["'".data,
         "        \x7d catch(e) \x7b".data,
         "          script.src = '".data] from by decide]
  rw [show splitOnChar '\n' rawE.data
      = ["'".data,
         "        \x7d".data,
         "        document.head.appendChild(script)".data,
         "      \x7d)()".data,
         "    </script>".data,
         "  ".data] from by decide]
  simp only [glueAt]

set_option maxRecDepth 8000 in
/-- Claim C10 (amended): for every probe expression and pair of bundle URLs
free of newline and backslash characters, the emitted loader markup equals
the fixed dedented template with the three values inserted
character-for-character inside the single-quoted literals, unescaped (the
witness inserts a URL containing a single quote).  A value containing a
newline or a backslash-`n` pair can disturb `dedent`'s indentation stripping
or escape rewriting, so the claim's unrestricted universal fails (see the
counterexample). -/
theorem loader_interpolation_verbatim (probe modern legacy : String)
    (hp1 : '\n' ∉ probe.data) (hp2 : '\\' ∉ probe.data)
    (hm1 : '\n' ∉ modern.data) (hm2 : '\\' ∉ modern.data)
    (hl1 : '\n' ∉ legacy.data) (hl2 : '\\' ∉ legacy.data) :
    loaderScriptFor probe modern legacy =
      loaderTemplate probe modern legacy := by
  apply String.ext
  rw [loaderScriptFor, dedent_data,
    rawLoaderText_lines probe modern legacy hp1 hm1 hl1]
  have hmindent : mindentOf
      [[],
       "    <script>".data,
       "      (function() \x7b".data,
       "        var script = document.createElement('script')".data,
       "        try \x7b".data,
       "          script.noModule.$".data,
       ("          eval('".data ++ (probe.data ++ "')".data)),
       "          script.type = 'module'".data,
       ("          script.src = '".data ++ (modern.data ++ "'".data)),
       "        \x7d catch(e) \x7b".data,
       ("          script.src = '".data ++ (legacy.data ++ "'".data)),
       "        \x7d".data,
       "        document.head.appendChild(script)".data,
       "      \x7d)()".data,
       "    </script>".data,
       "  ".data] = some 4 := by
    rw [mindentOf_eq_map]
    have h6 : indentOf ("          eval('".data ++ (probe.data ++ "')".data))
        = some 10 := by
      rw [indentOf_append_left _ _ (by decide)]
      decide
    have h8 : indentOf ("          script.src = '".data ++ (modern.data ++ "'".data))
        = some 10 := by
      rw [indentOf_append_left _ _ (by decide)]
      decide
    have h10 : indentOf ("          script.src = '".data ++ (legacy.data ++ "'".data))
        = some 10 := by
      rw [indentOf_append_left _ _ (by decide)]
      decide
    simp only [List.map_cons, List.map_nil, h6, h8, h10]
    decide
  rw [hmindent]
  simp only [Option.elim]
  have d6 : dropIndent 4 ("          eval('".data ++ (probe.data ++ "')".data))
      = ("      eval('".data ++ (probe.data ++ "')".data)) := by
    rw [dropIndent_append 4 _ _ (by decide) (by decide),
      show List.drop 4 "          eval('".data = "      eval('".data from by decide]
  have d8 : dropIndent 4 ("          script.src = '".data ++ (modern.data ++ "'".data))
      = ("      script.src = '".data ++ (modern.data ++ "'".data)) := by
    rw [dropIndent_append 4 _ _ (by decide) (by decide),
      show List.drop 4 "          script.src = '".data = "      script.src = '".data from by decide]
  have d10 : dropIndent 4 ("          script.src = '".data ++ (legacy.data ++ "'".data))
      = ("      script.src = '".data ++ (legacy.data ++ "'".data)) := by
    rw [dropIndent_append 4 _ _ (by decide) (by decide),
      show List.drop 4 "          script.src = '".data = "      script.src = '".data from by decide]
  have hmapd : List.map (dropIndent 4)
      [[],
       "    <script>".data,
       "      (function() \x7b".data,
       "        var script = document.createElement('script')".data,
       "        try \x7b".data,
       "          script.noModule.$".data,
       ("          eval('".data ++ (probe.data ++ "')".data)),
       "          script.type = 'module'".data,
       ("          script.src = '".data ++ (modern.data ++ "'".data)),
       "        \x7d catch(e) \x7b".data,
       ("          script.src = '".data ++ (legacy.data ++ "'".data)),
       "        \x7d".data,
       "        document.head.appendChild(script)".data,
       "      \x7d)()".data,
       "    </script>".data,
       "  ".data] =
      [[],
       "<script>".data,
       "  (function() \x7b".data,
       "    var script = document.createElement('script')".data,
       "    try \x7b".data,
       "      script.noModule.$".data,
       ("      eval('".data ++ (probe.data ++ "')".data)),
       "      script.type = 'module'".data,
       ("      script.src = '".data ++ (modern.data ++ "'".data)),
       "    \x7d catch(e) \x7b".data,
       ("      script.src = '".data ++ (legacy.data ++ "'".data)),
       "    \x7d".data,
       "    document.head.appendChild(script)".data,
       "  \x7d)()".data,
       "</script>".data,
       []] := by
    simp only [List.map_cons, List.map_nil, d6, d8, d10]
    rfl
  rw [hmapd]
  have hj : joinWithChar '\n'
      [[],
       "<script>".data,
       "  (function() \x7b".data,
       "    var script = document.createElement('script')".data,
       "    try \x7b".data,
       "      script.noModule.$".data,
       ("      eval('".data ++ (probe.data ++ "')".data)),
       "      script.type = 'module'".data,
       ("      script.src = '".data ++ (modern.data ++ "'".data)),
       "    \x7d catch(e) \x7b".data,
       ("      script.src = '".data ++ (legacy.data ++ "'".data)),
       "    \x7d".data,
       "    document.head.appendChild(script)".data,
       "  \x7d)()".data,
       "</script>".data,
       []] =
      '\n' :: ("<script>".data
        ++ '\n' :: ("  (function() \x7b".data
        ++ '\n' :: ("    var script = document.createElement('script')".data
        ++ '\n' :: ("    try \x7b".data
        ++ '\n' :: ("      script.noModule.$".data
        ++ '\n' :: (("      eval('".data ++ (probe.data ++ "')".data))
        ++ '\n' :: ("      script.type = 'module'".data
        ++ '\n' :: (("      script.src = '".data ++ (modern.data ++ "'".data))
        ++ '\n' :: ("    \x7d catch(e) \x7b".data
        ++ '\n' :: (("      script.src = '".data ++ (legacy.data ++ "'".data))
        ++ '\n' :: ("    \x7d".data
        ++ '\n' :: ("    document.head.appendChild(script)".data
        ++ '\n' :: ("  \x7d)()".data
        ++ '\n' :: ("</script>".data
        ++ '\n' :: ([] : List Char))))))))))))))) := rfl
  rw [hj]
  simp only [jsTrim]
  have hdw : List.dropWhile jsWS
      ('\n' :: ("<script>".data
        ++ '\n' :: ("  (function() \x7b".data
        ++ '\n' :: ("    var script = document.createElement('script')".data
        ++ '\n' :: ("    try \x7b".data
        ++ '\n' :: ("      script.noModule.$".data
        ++ '\n' :: (("      eval('".data ++ (probe.data ++ "')".data))
        ++ '\n' :: ("      script.type = 'module'".data
        ++ '\n' :: (("      script.src = '".data ++ (modern.data ++ "'".data))
        ++ '\n' :: ("    \x7d catch(e) \x7b".data
        ++ '\n' :: (("      script.src = '".data ++ (legacy.data ++ "'".data))
        ++ '\n' :: ("    \x7d".data
        ++ '\n' :: ("    document.head.appendChild(script)".data
        ++ '\n' :: ("  \x7d)()".data
        ++ '\n' :: ("</script>".data
        ++ '\n' :: ([] : List Char))))))))))))))))
      = ("<script>".data
        ++ '\n' :: ("  (function() \x7b".data
        ++ '\n' :: ("    var script = document.createElement('script')".data
        ++ '\n' :: ("    try \x7b".data
        ++ '\n' :: ("      script.noModule.$".data
        ++ '\n' :: (("      eval('".data ++ (probe.data ++ "')".data))
        ++ '\n' :: ("      script.type = 'module'".data
        ++ '\n' :: (("      script.src = '".data ++ (modern.data ++ "'".data))
        ++ '\n' :: ("    \x7d catch(e) \x7b".data
        ++ '\n' :: (("      script.src = '".data ++ (legacy.data ++ "'".data))
        ++ '\n' :: ("    \x7d".data
        ++ '\n' :: ("    document.head.appendChild(script)".data
        ++ '\n' :: ("  \x7d)()".data
        ++ '\n' :: ("</script>".data
        ++ '\n' :: ([] : List Char))))))))))))))) := by
    rw [List.dropWhile_cons]
    rw [if_pos (by decide)]
    rw [(takeWhile_dropWhile_append "<script>".data _ (by decide)).2]
    rw [show List.dropWhile jsWS "<script>".data = "<script>".data from by decide]
  rw [hdw]
  have hshape : ("<script>".data
        ++ '\n' :: ("  (function() \x7b".data
        ++ '\n' :: ("    var script = document.createElement('script')".data
        ++ '\n' :: ("    try \x7b".data
        ++ '\n' :: ("      script.noModule.$".data
        ++ '\n' :: (("      eval('".data ++ (probe.data ++ "')".data))
        ++ '\n' :: ("      script.type = 'module'".data
        ++ '\n' :: (("      script.src = '".data ++ (modern.data ++ "'".data))
        ++ '\n' :: ("    \x7d catch(e) \x7b".data
        ++ '\n' :: (("      script.src = '".data ++ (legacy.data ++ "'".data))
        ++ '\n' :: ("    \x7d".data
        ++ '\n' :: ("    document.head.appendChild(script)".data
        ++ '\n' :: ("  \x7d)()".data
        ++ '\n' :: ("</script>".data
        ++ '\n' :: ([] : List Char)))))))))))))))
      = ("<script>".data
        ++ '\n' :: ("  (function() \x7b".data
        ++ '\n' :: ("    var script = document.createElement('script')".data
        ++ '\n' :: ("    try \x7b".data
        ++ '\n' :: ("      script.noModule.$".data
        ++ '\n' :: (("      eval('".data ++ (probe.data ++ "')".data))
        ++ '\n' :: ("      script.type = 'module'".data
        ++ '\n' :: (("      script.src = '".data ++ (modern.data ++ "'".data))
        ++ '\n' :: ("    \x7d catch(e) \x7b".data
        ++ '\n' :: (("      script.src = '".data ++ (legacy.data ++ "'".data))
        ++ '\n' :: ("    \x7d".data
        ++ '\n' :: ("    document.head.appendChild(script)".data
        ++ '\n' :: ("  \x7d)()".data ++ ['\n'])))))))))))))
        ++ ("</script>".data ++ ['\n']) := by
    simp [List.append_assoc]
  rw [hshape]
  rw [trimRight_append _ _ (by decide)]
  rw [show trimRight ("</script>".data ++ ['\n']) = "</script>".data from by decide]
  have hPT : ("<script>".data
        ++ '\n' :: ("  (function() \x7b".data
        ++ '\n' :: ("    var script = document.createElement('script')".data
        ++ '\n' :: ("    try \x7b".data
        ++ '\n' :: ("      script.noModule.$".data
        ++ '\n' :: (("      eval('".data ++ (probe.data ++ "')".data))
        ++ '\n' :: ("      script.type = 'module'".data
        ++ '\n' :: (("      script.src = '".data ++ (modern.data ++ "'".data))
        ++ '\n' :: ("    \x7d catch(e) \x7b".data
        ++ '\n' :: (("      script.src = '".data ++ (legacy.data ++ "'".data))
        ++ '\n' :: ("    \x7d".data
        ++ '\n' :: ("    document.head.appendChild(script)".data
        ++ '\n' :: ("  \x7d)()".data ++ ['\n'])))))))))))))
        ++ "</script>".data
      = (loaderTemplate probe modern legacy).data := by
    simp [loaderTemplate, List.append_assoc]
  rw [hPT]
  apply replEscapedNl_id
  have hnot : ∀ (a b : List Char), '\\' ∉ a → '\\' ∉ b → '\\' ∉ a ++ b := by
    intro a b ha hb hm
    rcases List.mem_append.mp hm with h | h
    · exact ha h
    · exact hb h
  simp only [loaderTemplate, String.data_append]
  exact hnot _ _ (hnot _ _ (hnot _ _ (hnot _ _ (hnot _ _ (hnot _ _
    (by decide) hp2) (by decide)) hm2) (by decide)) hl2) (by decide)

/-! ## Claim theorems -/

/-- Claim C1: every evaluation of the generated loader script triggers exactly
one script fetch: when the module-support marker is present on the created
script element and the probe evaluation does not throw, the element becomes a
module script with `src` equal to the modern bundle URL; when either the
marker access or the probe evaluation throws, the element is configured
non-module with `src` equal to the legacy bundle URL; in all cases exactly one
of the two URLs is requested. -/
theorem loader_requests_exactly_one_bundle (env : BrowserEnv)
    (target modern legacy : String) :
    (requestedUrls env target modern legacy).length = 1 ∧
    (env.noModuleDefined = true → env.evalThrows (probeFor target) = false →
      evalLoader env target modern legacy =
        [{ type := some "module", src := some modern }]) ∧
    ((env.noModuleDefined = false ∨ env.evalThrows (probeFor target) = true) →
      evalLoader env target modern legacy =
        [{ type := none, src := some legacy }]) ∧
    (requestedUrls env target modern legacy = [modern] ∨
      requestedUrls env target modern legacy = [legacy]) := by
  obtain ⟨nm, et⟩ := env
  rcases nm with _ | _ <;>
    rcases het : et (probeFor target) with _ | _ <;>
      simp [requestedUrls, evalLoader, runTryCatch, runSeq, runStmt,
        loaderBody, loaderHandler, het]

/-- Witness for C1, realizing the spec scenario: target `es2019`, an
environment that supports modules but throws on the registered probe
`try{} catch{}`; the loader configures a non-module script fetching the
legacy URL. -/
theorem loader_requests_exactly_one_bundle_witness :
    evalLoader
        { noModuleDefined := true,
          evalThrows := fun s => s == "try\x7b\x7d catch\x7b\x7d" }
        "es2019" "/assets/main.js" "/assets/main.legacy.js" =
      [{ type := none, src := some "/assets/main.legacy.js" }] :=
  (loader_requests_exactly_one_bundle
      { noModuleDefined := true,
        evalThrows := fun s => s == "try\x7b\x7d catch\x7b\x7d" }
      "es2019" "/assets/main.js" "/assets/main.legacy.js").2.2.1
    (Or.inr (by decide))

/-- Claim C3: the asset list exposed by the `assets` override equals the
original list with the legacy artifact appended: length plus one, every
original asset unchanged at its original position, nothing removed. -/
theorem assets_override_appends_legacy (modernAssets : List ViteAsset)
    (legacyChunk : ViteAsset) :
    (assetsOverride modernAssets legacyChunk).length = modernAssets.length + 1 ∧
    (∀ i, i < modernAssets.length →
      (assetsOverride modernAssets legacyChunk)[i]? = modernAssets[i]?) ∧
    (∀ a ∈ modernAssets, a ∈ assetsOverride modernAssets legacyChunk) := by
  refine ⟨by simp [assetsOverride], ?_, ?_⟩
  · intro i hi
    simp [assetsOverride, List.getElem?_append, hi]
  · intro a ha
    simp [assetsOverride, ha]

/-- Witness for C3 at a concrete two-asset build. -/
theorem assets_override_appends_legacy_witness :
    (assetsOverride
        [⟨"chunk", "main.js", "x", none⟩, ⟨"asset", "style.css", "", none⟩]
        ⟨"chunk", "main.legacy.js", "y", none⟩).length = 3 ∧
    (assetsOverride
        [⟨"chunk", "main.js", "x", none⟩, ⟨"asset", "style.css", "", none⟩]
        ⟨"chunk", "main.legacy.js", "y", none⟩)[1]? =
      some ⟨"asset", "style.css", "", none⟩ ∧
    (⟨"chunk", "main.js", "x", none⟩ : ViteAsset) ∈
      assetsOverride
        [⟨"chunk", "main.js", "x", none⟩, ⟨"asset", "style.css", "", none⟩]
        ⟨"chunk", "main.legacy.js", "y", none⟩ :=
  ⟨(assets_override_appends_legacy _ _).1,
   (assets_override_appends_legacy _ _).2.1 1 (by decide),
   (assets_override_appends_legacy _ _).2.2 _ (by decide)⟩

/-- Counterexample to C4 as stated: for the entry name `main.mjs` the final
extension is `.mjs`, so the claim predicts `main.legacy.mjs`, but the code
only rewrites a final `.js` suffix and returns the name unchanged. -/
theorem legacy_name_counterexample :
    legacyFileName "main.mjs" = "main.mjs" ∧
    legacyFileName "main.mjs" ≠ "main.legacy.mjs" := by
  exact ⟨by decide, by decide⟩

theorem legacyFileName_append_js (stem : String) :
    legacyFileName (stem ++ ".js") = stem ++ ".legacy.js" := by
  obtain ⟨l⟩ := stem
  unfold legacyFileName
  rw [if_pos]
  · apply String.ext
    simp only [String.data_append]
    have h3 : (l ++ ['.', 'j', 's']).length - 3 = l.length := by simp
    rw [h3, List.take_left]
  · simp only [String.data_append, List.isSuffixOf_iff_suffix]
    exact List.suffix_append _ _

/-- Claim C4 (amended): for every entry chunk whose file name ends in `.js`,
the legacy artifact's name is the entry name with `.legacy` inserted before
the `.js` extension; names not ending in `.js` are left unchanged (see the
counterexample). -/
theorem legacy_name_inserts_legacy_before_js (stem : String) :
    legacyFileName (stem ++ ".js") = stem ++ ".legacy.js" :=
  legacyFileName_append_js stem

/-- Counterexample to C5 as stated: a build whose manifest already holds an
asset named `main.legacy.js` collides with the name derived for the entry
`main.js`; moreover for an entry not ending in `.js` (here `main.mjs`) the
derived name equals the entry name itself. -/
theorem legacy_name_collision_counterexample :
    legacyFileName "main.js" ∈
      (([⟨"asset", "main.legacy.js", "", none⟩] : List ViteAsset).map
        ViteAsset.fileName) ∧
    legacyFileName "main.mjs" = "main.mjs" := by
  exact ⟨by decide, by decide⟩

/-- Claim C5 (amended): the derived legacy file name differs from the entry
chunk's file name whenever the entry name ends in `.js`; the code does not
guard against coincidence with pre-existing asset names, and for entry names
not ending in `.js` the derived name equals the entry name. -/
theorem legacy_name_ne_entry_name (stem : String) :
    legacyFileName (stem ++ ".js") ≠ stem ++ ".js" := by
  rw [legacyFileName_append_js]
  intro h
  have hlen := congrArg String.length h
  simp only [String.length_append] at hlen
  have h10 : (".legacy.js" : String).length = 10 := by decide
  have h3 : (".js" : String).length = 3 := by decide
  omega

/-- Claim C6: when the downlevel transform collaborator reports no result,
legacy-chunk synthesis raises the build-aborting error
`[vite-plugin-legacy] Failed to transform modern bundle` and produces no
legacy artifact (the result is the error, never an `ok` asset). -/
theorem transform_failure_aborts_build (generate : TransformResult → ViteAsset) :
    createLegacyChunk none generate =
      Except.error "[vite-plugin-legacy] Failed to transform modern bundle" :=
  rfl

/-- Claim C7: for every target with no registered probe expression, the
generated loader's probe text is the literal `undefined`, whose evaluation
never throws in any JS environment, so the module-support check alone decides
which bundle is selected; in particular the pre-baseline levels es2015,
es2016 and es2017 are unregistered. -/
theorem unregistered_target_probe_is_noop (target : String) (env : BrowserEnv)
    (modern legacy : String) (hreg : syntaxTests target = none)
    (hundef : env.evalThrows "undefined" = false) :
    syntaxTests "es2015" = none ∧ syntaxTests "es2016" = none ∧
    syntaxTests "es2017" = none ∧
    probeFor target = "undefined" ∧
    evalLoader env target modern legacy =
      (if env.noModuleDefined then
        [{ type := some "module", src := some modern }]
      else [{ type := none, src := some legacy }]) := by
  have hprobe : probeFor target = "undefined" := by
    simp [probeFor, hreg]
  refine ⟨by decide, by decide, by decide, hprobe, ?_⟩
  obtain ⟨nm, et⟩ := env
  simp only at hundef
  rcases nm with _ | _ <;>
    simp [evalLoader, runTryCatch, runSeq, runStmt, loaderBody,
      loaderHandler, hprobe, hundef]

/-- Witness for C7: target `es2017` (unregistered), a legacy-only browser;
the marker check alone sends it to the legacy bundle. -/
theorem unregistered_target_probe_is_noop_witness :
    evalLoader { noModuleDefined := false, evalThrows := fun _ => false }
        "es2017" "m.js" "l.js" =
      [{ type := none, src := some "l.js" }] := by
  have h := unregistered_target_probe_is_noop "es2017"
    { noModuleDefined := false, evalThrows := fun _ => false }
    "m.js" "l.js" (by decide) rfl
  simpa using h.2.2.2.2

/-- Claim C2: the html override replaces a module-script tag by the
generated loader if and only if the base name of its `src` equals the entry
chunk's file name, and leaves every other module-script tag and all
surrounding text byte-for-byte unchanged: the output satisfies the
spec-side left-to-right description `SpliceSpec`, and is the only string
that does. -/
theorem html_override_rewrites_exactly_entry_tags
    (target entry legacyName cwd content : String) :
    SpliceSpec entry
      (fun u => (createScriptFactory target ⟨u⟩
        (posixResolve cwd [⟨u⟩, "..", legacyName])).data)
      content.data
      (htmlOverride target entry legacyName cwd content).data ∧
    ∀ out, SpliceSpec entry
        (fun u => (createScriptFactory target ⟨u⟩
          (posixResolve cwd [⟨u⟩, "..", legacyName])).data)
        content.data out →
      out = (htmlOverride target entry legacyName cwd content).data := by
  constructor
  · exact spliceList_satisfies_spec entry _ content.data
  · intro out hout
    exact spliceSpec_unique hout (spliceList_satisfies_spec entry _ content.data)

/-- Witness for C2 at a concrete page: one surrounding text run, one
entry-referencing module-script tag and one other module-script tag. -/
theorem html_override_rewrites_exactly_entry_tags_witness :
    SpliceSpec "main.js"
      (fun u => (createScriptFactory "es2019" ⟨u⟩
        (posixResolve "/" [⟨u⟩, "..", "main.legacy.js"])).data)
      ("<p>hi</p><script type=\"module\" src=\"/assets/main.js\"></script><script type=\"module\" src=\"/assets/other.js\"></script>").data
      (htmlOverride "es2019" "main.js" "main.legacy.js" "/"
        "<p>hi</p><script type=\"module\" src=\"/assets/main.js\"></script><script type=\"module\" src=\"/assets/other.js\"></script>").data :=
  (html_override_rewrites_exactly_entry_tags "es2019" "main.js"
    "main.legacy.js" "/"
    "<p>hi</p><script type=\"module\" src=\"/assets/main.js\"></script><script type=\"module\" src=\"/assets/other.js\"></script>").1

/-- Claim C9: the html override only rewrites script tags of the exact
textual shape matched by the pattern; an input in which no position matches
the exact shape - in particular one whose entry-referencing script tags
carry extra attributes, reversed attribute order, single quotes, or a
non-empty body - passes through unchanged, with no loader substituted. -/
theorem html_override_ignores_inexact_tags
    (target entry legacyName cwd : String) (content : String)
    (h : noTagOccurs content.data = true) :
    htmlOverride target entry legacyName cwd content = content := by
  apply String.ext
  exact spliceList_id_of_noTag _ content.data h

/-- Witness for C9: four tags referencing the entry `main.js` that deviate
from the exact shape (extra attribute, other attribute order, single quotes,
non-empty body) are all left unchanged. -/
theorem html_override_ignores_inexact_tags_witness :
    htmlOverride "es2019" "main.js" "main.legacy.js" "/"
        "<script type=\"module\" src=\"/assets/main.js\" defer></script><script src=\"/assets/main.js\" type=\"module\"></script><script type='module' src='/assets/main.js'></script><script type=\"module\" src=\"/assets/main.js\">x</script>" =
      "<script type=\"module\" src=\"/assets/main.js\" defer></script><script src=\"/assets/main.js\" type=\"module\"></script><script type='module' src='/assets/main.js'></script><script type=\"module\" src=\"/assets/main.js\">x</script>" :=
  html_override_ignores_inexact_tags "es2019" "main.js" "main.legacy.js" "/"
    _ (by decide)

set_option maxRecDepth 100000 in
/-- Counterexample to C10 as stated: a modern bundle URL containing a newline
whose second line starts with one space lowers the common indentation that
`dedent` strips, so the emitted markup is not the fixed template with the
three values inserted character-for-character. -/
theorem loader_interpolation_counterexample :
    loaderScriptFor "0?.$" "u\n v" "l.js" ≠
      loaderTemplate "0?.$" "u\n v" "l.js" := by
  decide

/-- Witness for C10 (amended): a modern URL containing a single quote is
embedded verbatim, unescaped, inside the emitted single-quoted literal. -/
theorem loader_interpolation_verbatim_witness :
    loaderScriptFor "try\x7b\x7d catch\x7b\x7d" "/assets/m'ain.js"
        "/assets/main.legacy.js" =
      loaderTemplate "try\x7b\x7d catch\x7b\x7d" "/assets/m'ain.js"
        "/assets/main.legacy.js" :=
  loader_interpolation_verbatim _ _ _ (by decide) (by decide) (by decide)
    (by decide) (by decide) (by decide)

/-- Claim C8: the chunk used as the entry for legacy synthesis is the first
element of the bundle, in enumeration order, that is a chunk flagged as
entry; when no such chunk exists the hook fails (the `undefined` field access
throws) instead of producing legacy output. -/
theorem entry_chunk_selection (bundle : List BundleAsset) :
    (∀ c, findMainChunk bundle = some c →
      c.type = "chunk" ∧ c.isEntry = true ∧
      ∃ pre post, bundle = pre ++ c :: post ∧
        ∀ a ∈ pre, ¬(a.type = "chunk" ∧ a.isEntry = true)) ∧
    (findMainChunk bundle = none →
      selectMainChunk bundle =
        Except.error "TypeError: cannot read properties of undefined") := by
  constructor
  · intro c h
    obtain ⟨l₁, l₂, rfl, hc, hall⟩ :=
      list_find?_eq_some_split isEntryChunk _ c h
    have hc' : c.type = "chunk" ∧ c.isEntry = true := by
      simpa [isEntryChunk, Bool.and_eq_true] using hc
    refine ⟨hc'.1, hc'.2, l₁, l₂, rfl, ?_⟩
    intro a ha hcontra
    have := hall a ha
    simp [isEntryChunk, hcontra.1, hcontra.2] at this
  · intro h
    simp [selectMainChunk, h]

/-- Witness for C8: a bundle holding only a non-chunk asset and a non-entry
chunk makes the hook fail. -/
theorem entry_chunk_selection_witness :
    selectMainChunk
        [⟨"asset", true, "style.css", ""⟩, ⟨"chunk", false, "dep.js", ""⟩] =
      Except.error "TypeError: cannot read properties of undefined" :=
  (entry_chunk_selection _).2 (by decide)

end VitePluginLegacy
